import Mathlib

/-!
Verification development for the cloudify-ansible plugin
(`cloudify_ansible/utils.py` and `ansible_plugin/tasks.py`).

Python dictionaries are modelled as association lists `List (String × V)`
with first-occurrence lookup and in-place overwrite on assignment, which
matches CPython dict semantics (insertion order preserved, assignment to an
existing key keeps its position).  Filesystem and process state are modelled
explicitly and threaded through the embedded functions.
-/

namespace CloudifyAnsible

/-- Python `dict` model: association list keyed by strings. -/
abbrev AMap (V : Type) := List (String × V)

/-- `d.get(key)` / `key in d`: first-occurrence lookup. -/
def alookup {V : Type} : AMap V → String → Option V
  | [], _ => none
  | (k, v) :: rest, key => if k = key then some v else alookup rest key

/-- `d[key] = val`: overwrite the first occurrence in place, else append
(CPython keeps the original position of an existing key). -/
def aset {V : Type} : AMap V → String → V → AMap V
  | [], key, val => [(key, val)]
  | (k, v) :: rest, key, val =>
    if k = key then (k, val) :: rest else (k, v) :: aset rest key val

/-- `list(d.keys())`. -/
def akeys {V : Type} (m : AMap V) : List String := m.map Prod.fst

/-- A single host's Ansible configuration dictionary, as built by
`get_host_config_from_compute_node` (utils.py lines 330-342).  Absent keys in
the Python `properties` / `agent_config` dicts show up here as `none`. -/
structure HostConfig where
  ansible_host : Option String
  ansible_user : Option String
  ansible_ssh_pass : Option String
  ansible_ssh_private_key_file : Option String
  ansible_ssh_common_args : Option String
  ansible_become : Bool
deriving DecidableEq, Repr

/-- A group record of a source document: one `hosts` field mapping hostnames
to host variables.  A `none` host value models the Python `None` host record
("member only, no host-specific variables"). -/
structure GroupRec where
  hosts : AMap (Option HostConfig)
deriving DecidableEq, Repr

/-- Source document / Ansible inventory: group name → group record. -/
abbrev SrcDoc := AMap GroupRec

/-- Union of two hosts dictionaries, entries of `b` overwriting same-named
entries of `a` (dict update semantics). -/
def unionHosts (a b : AMap (Option HostConfig)) : AMap (Option HostConfig) :=
  b.foldl (fun acc kv => aset acc kv.1 kv.2) a

/-- One step of the merge: fold one group of `other` into the accumulator. -/
def mergeStep (acc : SrcDoc) (gkv : String × GroupRec) : SrcDoc :=
  match alookup acc gkv.1 with
  | some r => aset acc gkv.1 ⟨unionHosts r.hosts gkv.2.hosts⟩
  | none => acc ++ [gkv]

/-- Modelled from the spec: `AnsibleSource.merge_source` from the external
`cloudify_ansible_sdk.sources` module (not under src/).  Spec 4.1: "for each
group in `other`, if absent in `self`, insert verbatim; if present, union the
`hosts` mappings (entries in `other` overwrite same-named host entries in
`self`)". -/
def mergeSource (a b : SrcDoc) : SrcDoc := b.foldl mergeStep a

/-- Modelled from the spec: `AnsibleSource.remove_source` from the external
`cloudify_ansible_sdk.sources` module (not under src/).  Spec 4.1: "for each
group in `other`, if present in `self`, remove exactly the host keys listed in
`other`'s corresponding group; if a group becomes empty, it may remain as an
empty group; operating on a group or host absent from `self` is a no-op". -/
def removeSource (a b : SrcDoc) : SrcDoc :=
  a.map (fun gkv =>
    match alookup b gkv.1 with
    | some rb =>
      (gkv.1, ⟨gkv.2.hosts.filter (fun kv => !((akeys rb.hosts).contains kv.1))⟩)
    | none => gkv)

/-- A playbook-run result payload `{failures: [...], dark: [...], ...}`.
`extra` carries the other diagnostic entries of the payload.  An absent
`failures`/`dark` key (Python `result.get` returning `None`) is modelled as
the empty list: both are falsy in the `handle_result` checks. -/
structure ResPayload where
  failures : List String
  dark : List String
  extra : AMap String
deriving DecidableEq, Repr

/-- Per-instance runtime-property store, as a typed view of the keys this
plugin reads and writes: `sources`, `result`, and `ip`.  `none` models an
absent key. -/
structure RuntimeProps where
  sources : Option SrcDoc
  result : Option ResPayload
  ip : Option String
deriving DecidableEq, Repr

/-- The `agent_config` sub-map of node properties. -/
structure AgentConfig where
  user : Option String
  password : Option String
  key : Option String
deriving DecidableEq, Repr

/-- Node properties read by the plugin. -/
structure NodeProperties where
  ip : Option String
  agent_config : Option AgentConfig
  ansible_become : Option Bool
deriving DecidableEq, Repr

/-- A node: name, declared type, declared type hierarchy, properties. -/
structure Node where
  name : String
  type : String
  type_hierarchy : List String
  properties : NodeProperties
deriving DecidableEq, Repr

/-- A node instance: unique id plus its runtime-property store.
(`inst` stands for the Python attribute `instance`.) -/
structure Instance where
  id : String
  runtime_properties : RuntimeProps
deriving DecidableEq, Repr

/-- One side of a topology view: a node together with its instance. -/
structure NodeView where
  node : Node
  inst : Instance
deriving DecidableEq, Repr

/-- The Cloudify context: either a node-instance context or a
relationship-instance context (with source and target sub-views), plus the
deployment id. -/
inductive CfyCtx where
  | nodeInstance (deploymentId : String) (node : Node) (inst : Instance)
  | relationshipInstance (deploymentId : String) (source target : NodeView)
deriving DecidableEq, Repr

/-- `_get_instance` (utils.py lines 98-102): the source instance for a
relationship context, the context's own instance otherwise. -/
def getInstanceOf : CfyCtx → Instance
  | .nodeInstance _ _ inst => inst
  | .relationshipInstance _ src _ => src.inst

/-- `_get_node` (utils.py lines 105-109). -/
def getNodeOf : CfyCtx → Node
  | .nodeInstance _ node _ => node
  | .relationshipInstance _ src _ => src.node

/-- Write back the runtime properties of the instance `_get_instance`
designates (models in-place mutation of that instance's store). -/
def setInstanceProps : CfyCtx → RuntimeProps → CfyCtx
  | .nodeInstance depId node inst, props =>
    .nodeInstance depId node { inst with runtime_properties := props }
  | .relationshipInstance depId src tgt, props =>
    .relationshipInstance depId
      { src with inst := { src.inst with runtime_properties := props } } tgt

/-- Outcome of `handle_result`: normal return, `NonRecoverableError` naming
the failed hosts, or `OperationRetry` naming the dark hosts. -/
inductive RunOutcome where
  | ok
  | failedNonRecoverable (failures : List String)
  | retryDark (dark : List String)
deriving DecidableEq, Repr

/-- `handle_result` (utils.py lines 345-355): persist the payload under the
`result` runtime-property key, then check `failures`, then `dark`. -/
def handleResult (result : ResPayload) (ctx : CfyCtx)
    (ignore_failures ignore_dark : Bool) : CfyCtx × RunOutcome :=
  let inst := getInstanceOf ctx
  let ctx' := setInstanceProps ctx { inst.runtime_properties with result := some result }
  if !result.failures.isEmpty && !ignore_failures then
    (ctx', .failedNonRecoverable result.failures)
  else if !result.dark.isEmpty && !ignore_dark then
    (ctx', .retryDark result.dark)
  else
    (ctx', .ok)

/-- Errors raised by the embedded functions. -/
inductive CfyErr where
  | invalidTopology
  | invalidInputNotString
  | invalidInputMissing (path : String)
deriving DecidableEq, Repr

/-- Python truthiness of an optional string (`None` and `''` are falsy). -/
def optTruthy : Option String → Bool
  | none => false
  | some s => s != ""

/-- Python `a or b` for an optional string `a` and a string default `b`. -/
def pyOrStr (o : Option String) (d : String) : String :=
  match o with
  | some s => if s == "" then d else s
  | none => d

/-- `get_group_name_and_hostname` (utils.py lines 308-327). -/
def getGroupNameAndHostname (v : NodeView)
    (group_name hostname : Option String) : Except CfyErr (String × String) :=
  if !optTruthy group_name && !optTruthy hostname &&
      !v.node.type_hierarchy.contains "cloudify.nodes.Compute" then
    .error .invalidTopology
  else
    .ok (pyOrStr group_name v.node.type, pyOrStr hostname v.inst.id)

/-- Does `pat` match at the head of `l`? -/
def leadEq : List Char → List Char → Bool
  | [], _ => true
  | _ :: _, [] => false
  | a :: as, b :: bs => a == b && leadEq as bs

/-- Does `pat` occur somewhere in `l`? -/
def subSearch (pat : List Char) : List Char → Bool
  | [] => leadEq pat []
  | b :: bs => leadEq pat (b :: bs) || subSearch pat bs

/-- Python `needle in hay` on strings: substring containment. -/
def strContainsSub (hay needle : String) : Bool := subSearch needle.data hay.data

/-- The strict-host-key-checking override string. -/
def strictHostKey : String := "-o StrictHostKeyChecking=no"

/-- The warning check of `get_source_config_from_ctx` (utils.py lines
248-253): true when the override is missing from
`host_config.get('ansible_ssh_common_args', '')` and a warning is logged. -/
def sshWarnFlag (cfg : HostConfig) : Bool :=
  !strContainsSub (cfg.ansible_ssh_common_args.getD "") strictHostKey

/-- `get_host_config_from_compute_node` (utils.py lines 330-342). -/
def getHostConfigFromComputeNode (v : NodeView) : HostConfig :=
  { ansible_host :=
      match v.inst.runtime_properties.ip with
      | some s => some s
      | none => v.node.properties.ip
    ansible_user :=
      match v.node.properties.agent_config with
      | some a => a.user
      | none => none
    ansible_ssh_pass :=
      match v.node.properties.agent_config with
      | some a => a.password
      | none => none
    ansible_ssh_private_key_file :=
      match v.node.properties.agent_config with
      | some a => a.key
      | none => none
    ansible_ssh_common_args := some strictHostKey
    ansible_become :=
      match v.node.properties.ansible_become with
      | some b => b
      | none => true }

/-- The external REST collaborator of `get_additional_node_groups`:
whether `get_rest_client()` succeeds (a `KeyError` means no client), and the
deployment-groups mapping (group name → member node names) returned by
`client.deployments.get(deployment_id).get('groups', {})`. -/
structure RestEnv where
  clientAvailable : Bool
  groupsOf : String → List (String × List String)

/-- `get_additional_node_groups` (utils.py lines 368-379). -/
def getAdditionalNodeGroups (env : RestEnv) (nodeName deploymentId : String) :
    List String :=
  if !env.clientAvailable then []
  else
    ((env.groupsOf deploymentId).filter
      (fun g => g.2.contains nodeName && g.1 != "")).map Prod.fst

/-- Python truthiness of `runtime_properties.get(SOURCES)`: present and a
non-empty dict. -/
def docTruthy : Option SrcDoc → Bool
  | some d => !d.isEmpty
  | none => false

/-- Common tail of `get_source_config_from_ctx` (utils.py lines 248-262):
resolve the host config and group/host names from the chosen view, query the
additional deployment groups, and assemble the document.  Returns the
document together with the warn flag of the ssh-args check.
`AnsibleSource(sources).config` is modelled from the spec as the identity on
the assembled document (the sdk module is not under src/; spec 3 and 4.2
treat the result as the assembled source-document value). -/
def assembleSourceConfig (env : RestEnv) (v : NodeView) (nodeName depId : String)
    (group_name hostname : Option String) (host_config : Option HostConfig)
    (sources0 : SrcDoc) : Except CfyErr (SrcDoc × Bool) :=
  let cfg :=
    match host_config with
    | some c => c
    | none => getHostConfigFromComputeNode v
  match getGroupNameAndHostname v group_name hostname with
  | .error e => .error e
  | .ok (gn, hn) =>
    let additional := getAdditionalNodeGroups env nodeName depId
    let warned := sshWarnFlag cfg
    let s1 := aset sources0 gn ⟨[(hn, some cfg)]⟩
    let s2 := additional.foldl (fun acc g => aset acc g ⟨[(hn, none)]⟩) s1
    .ok (s2, warned)

/-- `get_source_config_from_ctx` (utils.py lines 208-262).  The caller's
`host_config` and `sources` arguments are optional; `none` models both an
absent argument and a falsy (empty) one, matching the `or` defaults. -/
def getSourceConfigFromCtx (env : RestEnv) (ctx : CfyCtx)
    (group_name hostname : Option String) (host_config : Option HostConfig)
    (sources : Option SrcDoc) : Except CfyErr (SrcDoc × Bool) :=
  let sources0 := sources.getD []
  match ctx with
  | .nodeInstance depId node inst =>
    if !node.type_hierarchy.contains "cloudify.nodes.Compute" &&
        docTruthy inst.runtime_properties.sources then
      .ok (inst.runtime_properties.sources.getD [], false)
    else
      assembleSourceConfig env ⟨node, inst⟩ node.name depId
        group_name hostname host_config sources0
  | .relationshipInstance depId _ tgt =>
    assembleSourceConfig env tgt tgt.node.name depId
      group_name hostname host_config sources0

/-- `update_sources_from_target` (utils.py lines 265-276): read the
source-side instance's persisted document (default empty), merge the new
fragment into it, write it back, return it.  `src` is `_ctx.source`. -/
def updateSourcesFromTarget (newSources : SrcDoc) (src : NodeView) :
    NodeView × SrcDoc :=
  let current := src.inst.runtime_properties.sources.getD []
  let merged := mergeSource current newSources
  ({ src with inst := { src.inst with runtime_properties :=
      { src.inst.runtime_properties with sources := some merged } } }, merged)

/-- `cleanup_sources_from_target` (utils.py lines 279-290): same shape with
`remove_source` instead of `merge_source`. -/
def cleanupSourcesFromTarget (newSources : SrcDoc) (src : NodeView) :
    NodeView × SrcDoc :=
  let current := src.inst.runtime_properties.sources.getD []
  let removed := removeSource current newSources
  ({ src with inst := { src.inst with runtime_properties :=
      { src.inst.runtime_properties with sources := some removed } } }, removed)

/-- The `file_path` argument of `handle_file_path`: a string or a value of
some other type (failing the `isinstance(file_path, basestring)` check). -/
inductive FilePathArg where
  | str (s : String)
  | nonStr
deriving DecidableEq, Repr

/-- The context fields `handle_file_path` reads. -/
structure OpCtx where
  isLocal : Bool
  tenantName : String
  blueprintId : String
deriving DecidableEq, Repr

/-- `handle_file_path` (utils.py lines 68-95).  `bpIncludes` models the
missing `BP_INCLUDES_PATH.format(tenant, blueprint, relative_path)` constant
from `cloudify_ansible/constants.py` (not under src/): per the spec it
prefixes the relative path with the blueprint-includes path; the theorem
quantifies over it.  `fsPaths` is the set of existing filesystem paths. -/
def handleFilePath (bpIncludes : String → String → String → String)
    (fsPaths : List String) (c : OpCtx) (fp : FilePathArg) : Except CfyErr String :=
  match fp with
  | .nonStr => .error .invalidInputNotString
  | .str s =>
    let path := if c.isLocal then s else bpIncludes c.tenantName c.blueprintId s
    if fsPaths.contains path then .ok path
    else .error (.invalidInputMissing path)

/-- The process environment `os.environ`: key → value, `none` = unset. -/
def EnvMap : Type := String → Option String

/-- Point update of the environment. -/
def envSet (e : EnvMap) (k : String) (v : Option String) : EnvMap :=
  fun k' => if k' = k then v else e k'

/-- `assign_environ` (utils.py lines 358-360): `os.environ[key] = value` for
each item of `_vars`. -/
def assignEnviron (e : EnvMap) (vars0 : AMap String) : EnvMap :=
  vars0.foldl (fun acc kv => envSet acc kv.1 (some kv.2)) e

/-- `unassign_environ` (utils.py lines 363-365): `del os.environ[key]` for
each key of `_vars` (every such key is present after `assign_environ`, so the
deletes succeed). -/
def unassignEnviron (e : EnvMap) (vars0 : AMap String) : EnvMap :=
  vars0.foldl (fun acc kv => envSet acc kv.1 none) e

/-- A YAML/dict value inside a hosts document: a string or a nested dict
(the shapes `handle_key_data` distinguishes). -/
inductive YVal where
  | str (s : String)
  | dict (entries : List (String × YVal))
deriving Repr

/-- Filesystem state threaded through `handle_key_data`: the set of existing
paths, the files written so far as `(path, content, mode)` triples, and a
counter generating the unique (`uuid1`) file names. -/
structure FState where
  exPaths : List String
  written : List (String × String × Nat)
  ctr : Nat
deriving DecidableEq, Repr

/-- `os.path.join(workspace_dir, str(uuid1()))`, with `uuid1` modelled by the
fresh-name counter. -/
def freshPath (ws : String) (st : FState) : String := ws ++ "/" ++ toString st.ctr

/-- The dictionary key `handle_key_data` looks for. -/
def ansibleKeyField : String := "ansible_ssh_private_key_file"

/-- The `elif key in existing_dict` branch of `recurse_dictionary`
(utils.py lines 52-63): skip when the value is an existing path, otherwise
write it to a fresh workspace file, chmod `0o600`, and replace the value with
the path.  A dict-valued entry makes the `outfile.write` call raise an
uncaught `TypeError`, modelled as `none`. -/
def handleKeyEntry (ws : String) (es : List (String × YVal)) (v : YVal)
    (st : FState) : Option (List (String × YVal) × FState) :=
  match v with
  | .dict _ => none
  | .str s =>
    if st.exPaths.contains s then some (es, st)
    else
      let p := freshPath ws st
      some (aset es ansibleKeyField (.str p),
        { exPaths := p :: st.exPaths,
          written := st.written ++ [(p, s, 0o600)],
          ctr := st.ctr + 1 })

mutual

/-- `recurse_dictionary` inside `handle_key_data` (utils.py lines 47-64):
if the key is absent, recurse into every dict-valued entry; if present,
process it via the key branch. -/
def recurseDictionary (ws : String) (es : List (String × YVal)) (st : FState) :
    Option (List (String × YVal) × FState) :=
  match alookup es ansibleKeyField with
  | some v => handleKeyEntry ws es v st
  | none => recurseEntries ws es st
termination_by (sizeOf es, 1)

/-- The `for k, v in existing_dict.items()` loop: rebuild the entries in
order, recursing into nested dicts and threading the filesystem state. -/
def recurseEntries (ws : String) (es : List (String × YVal)) (st : FState) :
    Option (List (String × YVal) × FState) :=
  match es with
  | [] => some ([], st)
  | (k, .str s) :: rest =>
    match recurseEntries ws rest st with
    | none => none
    | some (r, st') => some ((k, .str s) :: r, st')
  | (k, .dict d) :: rest =>
    match recurseDictionary ws d st with
    | none => none
    | some (d', st') =>
      match recurseEntries ws rest st' with
      | none => none
      | some (r, st'') => some ((k, .dict d') :: r, st'')
termination_by (sizeOf es, 0)

end

/-- `handle_key_data` (utils.py lines 38-65): apply `recurse_dictionary` to
the hosts dict. -/
def handleKeyData (data : List (String × YVal)) (workspaceDir : String)
    (st : FState) : Option (List (String × YVal) × FState) :=
  recurseDictionary workspaceDir data st

/-! ## Claim theorems -/

/-- Concrete target view: a compute node named `tnode`. -/
def tgtFix : NodeView :=
  ⟨⟨"tnode", "t.type", ["cloudify.nodes.Compute"],
    ⟨some "10.0.0.5", some ⟨some "ubuntu", none, none⟩, none⟩⟩,
    ⟨"ti", ⟨none, none, none⟩⟩⟩

/-- Concrete source view of the relationship. -/
def srcFix : NodeView :=
  ⟨⟨"snode", "s.type", ["cloudify.nodes.Root"], ⟨none, none, none⟩⟩,
    ⟨"si", ⟨none, none, none⟩⟩⟩

/-- Concrete REST environment: one deployment group `web` containing
`tnode`. -/
def envFix : RestEnv := ⟨true, fun _ => [("web", ["tnode"])]⟩

@[simp] theorem alookup_nil {V : Type} (key : String) :
    alookup ([] : AMap V) key = none := rfl

@[simp] theorem alookup_cons {V : Type} (k : String) (v : V) (rest : AMap V) (key : String) :
    alookup ((k, v) :: rest) key = if k = key then some v else alookup rest key := rfl

theorem alookup_aset_self {V : Type} (m : AMap V) (k : String) (v : V) :
    alookup (aset m k v) k = some v := by
  induction m with
  | nil => simp [aset]
  | cons hd tl ih =>
    obtain ⟨k', v'⟩ := hd
    by_cases h : k' = k
    · simp [aset, h]
    · simp [aset, h, ih]

theorem alookup_aset_ne {V : Type} (m : AMap V) (k k' : String) (v : V) (h : k' ≠ k) :
    alookup (aset m k v) k' = alookup m k' := by
  have hne : k ≠ k' := Ne.symm h
  induction m with
  | nil => simp [aset, hne]
  | cons hd tl ih =>
    obtain ⟨k₀, v₀⟩ := hd
    by_cases hk : k₀ = k
    · subst hk
      simp [aset, hne]
    · simp only [aset, if_neg hk]
      by_cases hk' : k₀ = k'
      · simp [hk']
      · simp [hk', ih]

theorem aset_eq_of_alookup {V : Type} (m : AMap V) (k : String) (v : V)
    (h : alookup m k = some v) : aset m k v = m := by
  induction m with
  | nil => simp [alookup] at h
  | cons hd tl ih =>
    obtain ⟨k₀, v₀⟩ := hd
    by_cases hk : k₀ = k
    · subst hk
      simp [alookup] at h
      simp [aset, h]
    · simp [alookup, hk] at h
      simp [aset, hk, ih h]

theorem alookup_append {V : Type} (l₁ l₂ : AMap V) (key : String) :
    alookup (l₁ ++ l₂) key =
      match alookup l₁ key with
      | some v => some v
      | none => alookup l₂ key := by
  induction l₁ with
  | nil => simp
  | cons hd tl ih =>
    obtain ⟨k, v⟩ := hd
    by_cases h : k = key <;> simp [h, ih]

theorem alookup_of_nodup_mem {V : Type} (m : AMap V) (k : String) (v : V)
    (hnd : (akeys m).Nodup) (hmem : (k, v) ∈ m) : alookup m k = some v := by
  induction m with
  | nil => simp at hmem
  | cons hd tl ih =>
    obtain ⟨k₀, v₀⟩ := hd
    simp only [akeys, List.map_cons, List.nodup_cons] at hnd
    rcases List.mem_cons.mp hmem with heq | htl
    · cases heq
      simp [alookup]
    · have hne : k₀ ≠ k := by
        intro hk
        exact hnd.1 (hk ▸ (List.mem_map.mpr ⟨(k, v), htl, rfl⟩))
      simp [alookup, hne]
      exact ih hnd.2 htl


theorem unionHosts_eq_self (m b : AMap (Option HostConfig))
    (h : ∀ kv ∈ b, alookup m kv.1 = some kv.2) : unionHosts m b = m := by
  induction b generalizing m with
  | nil => rfl
  | cons hd tl ih =>
    have hm : aset m hd.1 hd.2 = m := aset_eq_of_alookup m hd.1 hd.2 (h hd (by simp))
    show unionHosts (aset m hd.1 hd.2) tl = m
    rw [hm]
    exact ih m (fun kv hkv => h kv (by simp [hkv]))

theorem alookup_unionHosts_not_mem (m b : AMap (Option HostConfig)) (k : String)
    (h : k ∉ akeys b) : alookup (unionHosts m b) k = alookup m k := by
  induction b generalizing m with
  | nil => rfl
  | cons hd tl ih =>
    simp only [akeys, List.map_cons, List.mem_cons] at h
    push_neg at h
    show alookup (unionHosts (aset m hd.1 hd.2) tl) k = alookup m k
    rw [ih (aset m hd.1 hd.2) (by simpa [akeys] using h.2)]
    exact alookup_aset_ne m hd.1 k hd.2 h.1

theorem alookup_unionHosts_mem (m b : AMap (Option HostConfig)) (k : String)
    (v : Option HostConfig) (hnd : (akeys b).Nodup) (hmem : (k, v) ∈ b) :
    alookup (unionHosts m b) k = some v := by
  induction b generalizing m with
  | nil => simp at hmem
  | cons hd tl ih =>
    simp only [akeys, List.map_cons, List.nodup_cons] at hnd
    rcases List.mem_cons.mp hmem with heq | htl
    · cases heq
      show alookup (unionHosts (aset m k v) tl) k = some v
      rw [alookup_unionHosts_not_mem _ _ _ (by simpa [akeys] using hnd.1)]
      exact alookup_aset_self m k v
    · exact ih _ hnd.2 htl

theorem unionHosts_idem (m b : AMap (Option HostConfig)) (hnd : (akeys b).Nodup) :
    unionHosts (unionHosts m b) b = unionHosts m b :=
  unionHosts_eq_self _ _ (fun kv hkv =>
    alookup_unionHosts_mem m b kv.1 kv.2 hnd hkv)

theorem alookup_mergeStep_ne (acc : SrcDoc) (gkv : String × GroupRec) (g : String)
    (h : g ≠ gkv.1) : alookup (mergeStep acc gkv) g = alookup acc g := by
  unfold mergeStep
  cases halo : alookup acc gkv.1 with
  | some r => exact alookup_aset_ne acc gkv.1 g _ h
  | none =>
    rw [alookup_append]
    cases h2 : alookup acc g with
    | some v => rfl
    | none => simp [alookup, Ne.symm h]

theorem alookup_mergeSource_not_mem (a b : SrcDoc) (g : String)
    (h : g ∉ akeys b) : alookup (mergeSource a b) g = alookup a g := by
  induction b generalizing a with
  | nil => rfl
  | cons hd tl ih =>
    simp only [akeys, List.map_cons, List.mem_cons] at h
    push_neg at h
    show alookup (mergeSource (mergeStep a hd) tl) g = alookup a g
    rw [ih (mergeStep a hd) (by simpa [akeys] using h.2)]
    exact alookup_mergeStep_ne a hd g h.1

theorem alookup_mergeSource_union (a b : SrcDoc) (g : String) (r : GroupRec)
    (hnd : (akeys b).Nodup)
    (hhosts : ∀ gr ∈ b, (akeys gr.2.hosts).Nodup)
    (hmem : (g, r) ∈ b) :
    ∃ hs, alookup (mergeSource a b) g = some ⟨hs⟩ ∧ unionHosts hs r.hosts = hs := by
  induction b generalizing a with
  | nil => simp at hmem
  | cons hd tl ih =>
    simp only [akeys, List.map_cons, List.nodup_cons] at hnd
    rcases List.mem_cons.mp hmem with heq | htl
    · cases heq
      show ∃ hs, alookup (mergeSource (mergeStep a (g, r)) tl) g = some ⟨hs⟩ ∧ _
      rw [alookup_mergeSource_not_mem _ _ _ (by simpa [akeys] using hnd.1)]
      have hrh : (akeys r.hosts).Nodup := hhosts (g, r) (by simp)
      unfold mergeStep
      cases halo : alookup a g with
      | some ra =>
        refine ⟨unionHosts ra.hosts r.hosts, ?_, unionHosts_idem _ _ hrh⟩
        simpa using alookup_aset_self a g (⟨unionHosts ra.hosts r.hosts⟩ : GroupRec)
      | none =>
        refine ⟨r.hosts, ?_, ?_⟩
        · rw [alookup_append, halo]
          simp [alookup]
        · exact unionHosts_eq_self _ _ (fun kv hkv =>
            alookup_of_nodup_mem r.hosts kv.1 kv.2 hrh hkv)
    · exact ih _ hnd.2
        (fun gr hgr => hhosts gr (List.mem_cons.mpr (Or.inr hgr))) htl

theorem mergeSource_eq_self (m b : SrcDoc)
    (h : ∀ gkv ∈ b, ∃ hs, alookup m gkv.1 = some ⟨hs⟩ ∧
      unionHosts hs gkv.2.hosts = hs) : mergeSource m b = m := by
  induction b with
  | nil => rfl
  | cons hd tl ih =>
    obtain ⟨hs, hlook, hfix⟩ := h hd (by simp)
    have hstep : mergeStep m hd = m := by
      unfold mergeStep
      rw [hlook]
      show aset m hd.1 ⟨unionHosts hs hd.2.hosts⟩ = m
      rw [hfix]
      exact aset_eq_of_alookup m hd.1 ⟨hs⟩ hlook
    show mergeSource (mergeStep m hd) tl = m
    rw [hstep]
    exact ih (fun gkv hgkv => h gkv (by simp [hgkv]))


theorem alookup_foldl_aset_const (gs : List String) (r : GroupRec) (init : SrcDoc)
    (g : String) :
    alookup (gs.foldl (fun acc x => aset acc x r) init) g =
      if g ∈ gs then some r else alookup init g := by
  induction gs generalizing init with
  | nil => simp
  | cons hd tl ih =>
    show alookup (tl.foldl _ (aset init hd r)) g = _
    rw [ih (aset init hd r)]
    by_cases hmem : g ∈ tl
    · simp [hmem]
    · by_cases hg : g = hd
      · subst hg
        simp [hmem, alookup_aset_self]
      · simp [hmem, hg, alookup_aset_ne init hd g r hg]

theorem getGroupNameAndHostname_ok (v : NodeView) (gn hn : Option String)
    (h : ¬(optTruthy gn = false ∧ optTruthy hn = false ∧
      "cloudify.nodes.Compute" ∉ v.node.type_hierarchy)) :
    getGroupNameAndHostname v gn hn =
      .ok (pyOrStr gn v.node.type, pyOrStr hn v.inst.id) := by
  by_cases hgn : optTruthy gn <;>
    by_cases hhn : optTruthy hn <;>
      by_cases hc : "cloudify.nodes.Compute" ∈ v.node.type_hierarchy <;>
        simp_all [getGroupNameAndHostname]

/-- C1: `handle_result` first persists the full result payload under the
`result` runtime-property key, and only then evaluates the two conditions:
it signals `NonRecoverableError` naming the failed hosts iff `failures` is
non-empty and `ignore_failures` is false; otherwise it signals
`OperationRetry` naming the dark hosts iff `dark` is non-empty and
`ignore_dark` is false; otherwise it returns normally.  The persisted value
equals the full payload in every case. -/
theorem handle_result_persists_then_signals (r : ResPayload) (ctx : CfyCtx)
    (ignore_failures ignore_dark : Bool) :
    (getInstanceOf (handleResult r ctx ignore_failures ignore_dark).1).runtime_properties.result
        = some r ∧
    ((handleResult r ctx ignore_failures ignore_dark).2 = .failedNonRecoverable r.failures ↔
      (r.failures ≠ [] ∧ ignore_failures = false)) ∧
    ((handleResult r ctx ignore_failures ignore_dark).2 = .retryDark r.dark ↔
      (¬(r.failures ≠ [] ∧ ignore_failures = false) ∧
        r.dark ≠ [] ∧ ignore_dark = false)) ∧
    ((handleResult r ctx ignore_failures ignore_dark).2 = .ok ↔
      (¬(r.failures ≠ [] ∧ ignore_failures = false) ∧
        ¬(r.dark ≠ [] ∧ ignore_dark = false))) := by
  obtain ⟨fs, dk, ex⟩ := r
  cases ctx <;> cases ignore_failures <;> cases ignore_dark <;>
    cases fs <;> cases dk <;>
      simp [handleResult, getInstanceOf, setInstanceProps]

/-- C2: merging the same fragment twice yields the same document as merging
it once: `merge(merge(A,B), B) == merge(A,B)`.  The hypotheses say `B` is a
well-formed document (unique group keys, unique host keys per group), which
every Python dict satisfies. -/
theorem merge_source_idempotent (a b : SrcDoc)
    (hkeys : (akeys b).Nodup)
    (hhosts : ∀ gr ∈ b, (akeys gr.2.hosts).Nodup) :
    mergeSource (mergeSource a b) b = mergeSource a b :=
  mergeSource_eq_self _ _ (fun gkv hgkv =>
    alookup_mergeSource_union a b gkv.1 gkv.2 hkeys hhosts hgkv)

/-- Witness for C2 at concrete documents. -/
theorem merge_source_idempotent_witness :
    (akeys [("g1", (⟨[("h1", some ⟨some "10.0.0.5", some "ubuntu", none, none,
        some strictHostKey, true⟩), ("h2", none)]⟩ : GroupRec)),
      ("g2", ⟨[("h3", none)]⟩)]).Nodup ∧
    (∀ gr ∈ [("g1", (⟨[("h1", some ⟨some "10.0.0.5", some "ubuntu", none, none,
        some strictHostKey, true⟩), ("h2", none)]⟩ : GroupRec)),
      ("g2", ⟨[("h3", none)]⟩)], (akeys gr.2.hosts).Nodup) ∧
    mergeSource (mergeSource [("g1", (⟨[("h1", none)]⟩ : GroupRec))]
        [("g1", (⟨[("h1", some ⟨some "10.0.0.5", some "ubuntu", none, none,
            some strictHostKey, true⟩), ("h2", none)]⟩ : GroupRec)),
          ("g2", ⟨[("h3", none)]⟩)])
        [("g1", (⟨[("h1", some ⟨some "10.0.0.5", some "ubuntu", none, none,
            some strictHostKey, true⟩), ("h2", none)]⟩ : GroupRec)),
          ("g2", ⟨[("h3", none)]⟩)] =
      mergeSource [("g1", (⟨[("h1", none)]⟩ : GroupRec))]
        [("g1", (⟨[("h1", some ⟨some "10.0.0.5", some "ubuntu", none, none,
            some strictHostKey, true⟩), ("h2", none)]⟩ : GroupRec)),
          ("g2", ⟨[("h3", none)]⟩)] :=
  ⟨by decide, by decide,
    merge_source_idempotent _ _ (by decide) (by decide)⟩

/-- C3: `get_group_name_and_hostname` fails with the invalid-topology error
iff no (truthy) group-name override and no (truthy) hostname override are
supplied and the node's type hierarchy lacks `cloudify.nodes.Compute`; in
every other case it returns (override or node type, override or instance id)
without failing. -/
theorem get_group_name_and_hostname_spec (v : NodeView) (gn hn : Option String) :
    (getGroupNameAndHostname v gn hn = .error .invalidTopology ↔
      (optTruthy gn = false ∧ optTruthy hn = false ∧
        "cloudify.nodes.Compute" ∉ v.node.type_hierarchy)) ∧
    (¬(optTruthy gn = false ∧ optTruthy hn = false ∧
        "cloudify.nodes.Compute" ∉ v.node.type_hierarchy) →
      getGroupNameAndHostname v gn hn =
        .ok (pyOrStr gn v.node.type, pyOrStr hn v.inst.id)) := by
  by_cases hgn : optTruthy gn <;>
    by_cases hhn : optTruthy hn <;>
      by_cases hc : "cloudify.nodes.Compute" ∈ v.node.type_hierarchy <;>
        simp [getGroupNameAndHostname, hgn, hhn, hc]

/-- Witness for C3: a non-compute node with no overrides fails; the same node
with a group-name override resolves to the override and the instance id. -/
theorem get_group_name_and_hostname_spec_witness :
    getGroupNameAndHostname
        ⟨⟨"n1", "my.type", ["cloudify.nodes.Root"], ⟨none, none, none⟩⟩,
          ⟨"i1", ⟨none, none, none⟩⟩⟩ none none = .error .invalidTopology ∧
    getGroupNameAndHostname
        ⟨⟨"n1", "my.type", ["cloudify.nodes.Root"], ⟨none, none, none⟩⟩,
          ⟨"i1", ⟨none, none, none⟩⟩⟩ (some "webservers") none =
      .ok ("webservers", "i1") :=
  ⟨(get_group_name_and_hostname_spec
      ⟨⟨"n1", "my.type", ["cloudify.nodes.Root"], ⟨none, none, none⟩⟩,
        ⟨"i1", ⟨none, none, none⟩⟩⟩ none none).1.mpr (by decide),
    (get_group_name_and_hostname_spec
      ⟨⟨"n1", "my.type", ["cloudify.nodes.Root"], ⟨none, none, none⟩⟩,
        ⟨"i1", ⟨none, none, none⟩⟩⟩ (some "webservers") none).2 (by decide)⟩
/-- C4 counterexample: with group-name override `web` and an auxiliary
deployment group also named `web` whose membership includes the target node,
the returned document maps `web` to the null host record, not to
`{hostname: host_config}` as the claim states. -/
theorem get_source_config_aux_overwrite_counterexample :
    getSourceConfigFromCtx envFix
        (.relationshipInstance "dep1" srcFix tgtFix)
        (some "web") (some "h1") none none =
      .ok ([("web", ⟨[("h1", none)]⟩)], false) ∧
    alookup [("web", (⟨[("h1", none)]⟩ : GroupRec))] "web" ≠
      some ⟨[("h1", some (getHostConfigFromComputeNode tgtFix))]⟩ :=
  ⟨rfl, by decide⟩

/-- C4 (amended): for a relationship context the host configuration, group
name, hostname and auxiliary groups are derived from the target side, and
(with no initial `sources` argument) the returned document maps each
auxiliary deployment group containing the target node's name to the null
host record, maps the resolved group name to `{hosts: {hostname:
host_config}}` when it is not also an auxiliary group (an auxiliary group of
the same name is written afterwards and overwrites the primary entry), and
contains no other groups. -/
theorem get_source_config_rel_characterization (env : RestEnv) (depId : String)
    (src tgt : NodeView) (gn hn : Option String) (hc : Option HostConfig)
    (h : ¬(optTruthy gn = false ∧ optTruthy hn = false ∧
      "cloudify.nodes.Compute" ∉ tgt.node.type_hierarchy)) :
    ∀ doc warned,
      getSourceConfigFromCtx env (.relationshipInstance depId src tgt)
          gn hn hc none = .ok (doc, warned) →
      ∀ g, alookup doc g =
        if g ∈ getAdditionalNodeGroups env tgt.node.name depId then
          some ⟨[(pyOrStr hn tgt.inst.id, none)]⟩
        else if g = pyOrStr gn tgt.node.type then
          some ⟨[(pyOrStr hn tgt.inst.id,
            some (match hc with
              | some c => c
              | none => getHostConfigFromComputeNode tgt))]⟩
        else none := by
  intro doc warned heq g
  have hok := getGroupNameAndHostname_ok tgt gn hn h
  simp only [getSourceConfigFromCtx, assembleSourceConfig, hok,
    Option.getD_none, Except.ok.injEq, Prod.mk.injEq] at heq
  obtain ⟨hdoc, hw⟩ := heq
  subst hdoc
  rw [alookup_foldl_aset_const]
  by_cases hmem : g ∈ getAdditionalNodeGroups env tgt.node.name depId
  · simp [hmem]
  · by_cases hg : g = pyOrStr gn tgt.node.type
    · subst hg
      simp [hmem, alookup_aset_self]
    · simp [hmem, hg, alookup_aset_ne _ _ _ _ hg, alookup, Ne.symm hg]

/-- Witness for C4 (amended) at a concrete relationship: primary group `db`,
auxiliary deployment group `web`. -/
theorem get_source_config_rel_characterization_witness :
    alookup [("db", (⟨[("h1", some (getHostConfigFromComputeNode tgtFix))]⟩ : GroupRec)),
        ("web", ⟨[("h1", none)]⟩)] "db" =
      some ⟨[("h1", some (getHostConfigFromComputeNode tgtFix))]⟩ := by
  have hchar := get_source_config_rel_characterization envFix "dep1" srcFix tgtFix
      (some "db") (some "h1") none (by decide)
      [("db", ⟨[("h1", some (getHostConfigFromComputeNode tgtFix))]⟩),
        ("web", ⟨[("h1", none)]⟩)] false rfl "db"
  exact hchar.trans (by decide)

/-- C5: the derived host configuration prefers the runtime `ip` over the
static node property, draws user/password/key from the `agent_config`
sub-map, always carries the strict-host-key-checking override (so the warn
check never fires on it), and `ansible_become` defaults to true; a
caller-supplied host configuration is placed into the document unmodified
(no override injected), with the warn flag set exactly when it omits the
override string. -/
theorem host_config_derivation_and_passthrough (v : NodeView) (env : RestEnv)
    (depId : String) (src tgt : NodeView) (gn hn : Option String) (c : HostConfig) :
    (∀ s, v.inst.runtime_properties.ip = some s →
      (getHostConfigFromComputeNode v).ansible_host = some s) ∧
    (v.inst.runtime_properties.ip = none →
      (getHostConfigFromComputeNode v).ansible_host = v.node.properties.ip) ∧
    (∀ a, v.node.properties.agent_config = some a →
      (getHostConfigFromComputeNode v).ansible_user = a.user ∧
      (getHostConfigFromComputeNode v).ansible_ssh_pass = a.password ∧
      (getHostConfigFromComputeNode v).ansible_ssh_private_key_file = a.key) ∧
    (getHostConfigFromComputeNode v).ansible_ssh_common_args = some strictHostKey ∧
    (v.node.properties.ansible_become = none →
      (getHostConfigFromComputeNode v).ansible_become = true) ∧
    (∀ b, v.node.properties.ansible_become = some b →
      (getHostConfigFromComputeNode v).ansible_become = b) ∧
    sshWarnFlag (getHostConfigFromComputeNode v) = false ∧
    (∀ doc warned,
      getSourceConfigFromCtx env (.relationshipInstance depId src tgt)
          gn hn (some c) none = .ok (doc, warned) →
      warned = !strContainsSub (c.ansible_ssh_common_args.getD "") strictHostKey ∧
      ∀ g r, alookup doc g = some r →
        ∀ hname cfg, alookup r.hosts hname = some (some cfg) → cfg = c) := by
  refine ⟨?_, ?_, ?_, rfl, ?_, ?_, rfl, ?_⟩
  · intro s hs
    simp [getHostConfigFromComputeNode, hs]
  · intro hs
    simp [getHostConfigFromComputeNode, hs]
  · intro a ha
    simp [getHostConfigFromComputeNode, ha]
  · intro hb
    simp [getHostConfigFromComputeNode, hb]
  · intro b hb
    simp [getHostConfigFromComputeNode, hb]
  · intro doc warned heq
    by_cases h : (optTruthy gn = false ∧ optTruthy hn = false ∧
        "cloudify.nodes.Compute" ∉ tgt.node.type_hierarchy)
    · exfalso
      simp only [getSourceConfigFromCtx, assembleSourceConfig] at heq
      rw [show getGroupNameAndHostname tgt gn hn = .error .invalidTopology by
        simp [getGroupNameAndHostname, h.1, h.2.1, h.2.2]] at heq
      simp at heq
    · have hok := getGroupNameAndHostname_ok tgt gn hn h
      simp only [getSourceConfigFromCtx, assembleSourceConfig, hok,
        Option.getD_none, Except.ok.injEq, Prod.mk.injEq] at heq
      obtain ⟨hdoc, hw⟩ := heq
      subst hdoc
      refine ⟨hw.symm, ?_⟩
      intro g r halook hname cfg hhost
      rw [alookup_foldl_aset_const] at halook
      by_cases hmem : g ∈ getAdditionalNodeGroups env tgt.node.name depId
      · rw [if_pos hmem] at halook
        cases halook
        simp only [alookup] at hhost
        by_cases hh : pyOrStr hn tgt.inst.id = hname <;> simp [hh] at hhost
      · rw [if_neg hmem] at halook
        by_cases hg : g = pyOrStr gn tgt.node.type
        · subst hg
          rw [alookup_aset_self] at halook
          cases halook
          simp only [alookup] at hhost
          by_cases hh : pyOrStr hn tgt.inst.id = hname <;> simp [hh] at hhost
          exact hhost.symm
        · rw [alookup_aset_ne _ _ _ _ hg] at halook
          simp [alookup] at halook

/-- C6: for a hosts dict with a top-level `ansible_ssh_private_key_file`
entry holding inline key material that is not an existing path,
`handle_key_data` writes the material to a fresh workspace file with mode
`0o600` and replaces the entry's value with that path in place; when the
value already resolves to an existing path nothing is written and the dict
is returned unchanged; in particular processing the rewritten dict a second
time writes no second file. -/
theorem handle_key_data_spec (ws s : String) (es : List (String × YVal))
    (st : FState) (hlook : alookup es ansibleKeyField = some (.str s)) :
    (st.exPaths.contains s = false →
      handleKeyData es ws st =
        some (aset es ansibleKeyField (.str (freshPath ws st)),
          ⟨freshPath ws st :: st.exPaths,
            st.written ++ [(freshPath ws st, s, 0o600)], st.ctr + 1⟩) ∧
      handleKeyData (aset es ansibleKeyField (.str (freshPath ws st))) ws
          ⟨freshPath ws st :: st.exPaths,
            st.written ++ [(freshPath ws st, s, 0o600)], st.ctr + 1⟩ =
        some (aset es ansibleKeyField (.str (freshPath ws st)),
          ⟨freshPath ws st :: st.exPaths,
            st.written ++ [(freshPath ws st, s, 0o600)], st.ctr + 1⟩)) ∧
    (st.exPaths.contains s = true → handleKeyData es ws st = some (es, st)) := by
  constructor
  · intro hex
    constructor
    · rw [handleKeyData, recurseDictionary, hlook]
      have hex' : s ∉ st.exPaths := by simpa using hex
      simp [handleKeyEntry, hex, hex']
    · rw [handleKeyData, recurseDictionary,
        alookup_aset_self es ansibleKeyField (.str (freshPath ws st))]
      have hc : (freshPath ws st :: st.exPaths).contains (freshPath ws st) = true := by
        simp [List.contains]
      simp [handleKeyEntry, hc]
  · intro hex
    rw [handleKeyData, recurseDictionary, hlook]
    have hex' : s ∈ st.exPaths := by simpa using hex
    simp [handleKeyEntry, hex, hex']

/-- Witness for C6: inline key material in a fresh workspace. -/
theorem handle_key_data_spec_witness :
    handleKeyData [("ansible_ssh_private_key_file", .str "-----BEGIN KEY-----data")]
        "/w" ⟨[], [], 0⟩ =
      some ([("ansible_ssh_private_key_file", .str "/w/0")],
        ⟨["/w/0"], [("/w/0", "-----BEGIN KEY-----data", 0o600)], 1⟩) ∧
    handleKeyData [("ansible_ssh_private_key_file", .str "/w/0")]
        "/w" ⟨["/w/0"], [("/w/0", "-----BEGIN KEY-----data", 0o600)], 1⟩ =
      some ([("ansible_ssh_private_key_file", .str "/w/0")],
        ⟨["/w/0"], [("/w/0", "-----BEGIN KEY-----data", 0o600)], 1⟩) :=
  ⟨((handle_key_data_spec "/w" "-----BEGIN KEY-----data"
      [("ansible_ssh_private_key_file", .str "-----BEGIN KEY-----data")]
      ⟨[], [], 0⟩ rfl).1 rfl).1,
    ((handle_key_data_spec "/w" "-----BEGIN KEY-----data"
      [("ansible_ssh_private_key_file", .str "-----BEGIN KEY-----data")]
      ⟨[], [], 0⟩ rfl).1 rfl).2⟩

/-- C7: the accumulator reads the source-side instance's persisted document
(default empty), merges the fragment on relationship-establish
(`update_sources_from_target`) or subtracts it on relationship-unlink
(`cleanup_sources_from_target`), writes the result back under the same key,
and returns it; node identity and the other runtime properties of the
source-side instance are untouched. -/
theorem sources_accumulator_spec (frag : SrcDoc) (src : NodeView) :
    (updateSourcesFromTarget frag src).2 =
      mergeSource (src.inst.runtime_properties.sources.getD []) frag ∧
    ((updateSourcesFromTarget frag src).1).inst.runtime_properties.sources =
      some ((updateSourcesFromTarget frag src).2) ∧
    ((updateSourcesFromTarget frag src).1).node = src.node ∧
    ((updateSourcesFromTarget frag src).1).inst.id = src.inst.id ∧
    ((updateSourcesFromTarget frag src).1).inst.runtime_properties.result =
      src.inst.runtime_properties.result ∧
    ((updateSourcesFromTarget frag src).1).inst.runtime_properties.ip =
      src.inst.runtime_properties.ip ∧
    (cleanupSourcesFromTarget frag src).2 =
      removeSource (src.inst.runtime_properties.sources.getD []) frag ∧
    ((cleanupSourcesFromTarget frag src).1).inst.runtime_properties.sources =
      some ((cleanupSourcesFromTarget frag src).2) ∧
    ((cleanupSourcesFromTarget frag src).1).node = src.node ∧
    ((cleanupSourcesFromTarget frag src).1).inst.id = src.inst.id ∧
    ((cleanupSourcesFromTarget frag src).1).inst.runtime_properties.result =
      src.inst.runtime_properties.result ∧
    ((cleanupSourcesFromTarget frag src).1).inst.runtime_properties.ip =
      src.inst.runtime_properties.ip :=
  ⟨rfl, rfl, rfl, rfl, rfl, rfl, rfl, rfl, rfl, rfl, rfl, rfl⟩

/-- C8: `handle_file_path` fails iff the argument is not a string or the
resolved path (prefixed with the blueprint-includes path when not running
locally) does not exist; otherwise it returns the resolved path, which
exists. -/
theorem handle_file_path_spec (bp : String → String → String → String)
    (fsPaths : List String) (c : OpCtx) :
    (handleFilePath bp fsPaths c .nonStr = .error .invalidInputNotString) ∧
    (∀ s,
      (handleFilePath bp fsPaths c (.str s) =
          .ok (if c.isLocal then s else bp c.tenantName c.blueprintId s) ↔
        (if c.isLocal then s else bp c.tenantName c.blueprintId s) ∈ fsPaths) ∧
      ((if c.isLocal then s else bp c.tenantName c.blueprintId s) ∉ fsPaths →
        handleFilePath bp fsPaths c (.str s) =
          .error (.invalidInputMissing
            (if c.isLocal then s else bp c.tenantName c.blueprintId s)))) := by
  refine ⟨rfl, fun s => ?_⟩
  by_cases hmem : (if c.isLocal then s else bp c.tenantName c.blueprintId s) ∈ fsPaths <;>
    simp [handleFilePath, hmem]

/-- C9 counterexample: with `A=old` in the environment and `V = {A: new}`,
assign-then-unassign deletes `A` instead of restoring `old`, so the
environment is not restored to its prior state. -/
theorem environ_pair_counterexample :
    ¬ (unassignEnviron
        (assignEnviron (fun k => if k = "A" then some "old" else none)
          [("A", "new")])
        [("A", "new")] =
      (fun k => if k = "A" then some "old" else none)) := by
  intro h
  have hA := congrFun h "A"
  simp [unassignEnviron, assignEnviron, envSet] at hA

theorem unassignEnviron_apply (e : EnvMap) (vars0 : AMap String) (k : String) :
    unassignEnviron e vars0 k =
      if k ∈ vars0.map Prod.fst then none else e k := by
  induction vars0 generalizing e with
  | nil => simp [unassignEnviron]
  | cons hd tl ih =>
    show unassignEnviron (envSet e hd.1 none) tl k = _
    rw [ih (envSet e hd.1 none)]
    by_cases hmem : k ∈ tl.map Prod.fst
    · simp [hmem]
    · by_cases hk : k = hd.1
      · simp [hmem, hk, envSet]
      · simp [hmem, hk, envSet]

theorem assignEnviron_apply_not_mem (e : EnvMap) (vars0 : AMap String) (k : String)
    (h : k ∉ vars0.map Prod.fst) : assignEnviron e vars0 k = e k := by
  induction vars0 generalizing e with
  | nil => rfl
  | cons hd tl ih =>
    simp only [List.map_cons, List.mem_cons] at h
    push_neg at h
    show assignEnviron (envSet e hd.1 (some hd.2)) tl k = e k
    rw [ih (envSet e hd.1 (some hd.2)) (by simpa using h.2)]
    simp [envSet, h.1]

/-- C9 (amended): assign-then-unassign removes exactly the keys of `V` from
the environment and leaves every other entry unchanged; the environment is
restored to its prior state when no key of `V` was set beforehand (a
pre-existing entry for a key of `V` is deleted, not restored). -/
theorem environ_pair_removes_exactly_keys (e : EnvMap) (vars0 : AMap String) :
    (∀ k, unassignEnviron (assignEnviron e vars0) vars0 k =
      if k ∈ vars0.map Prod.fst then none else e k) ∧
    ((∀ k ∈ vars0.map Prod.fst, e k = none) →
      unassignEnviron (assignEnviron e vars0) vars0 = e) := by
  have happ : ∀ k, unassignEnviron (assignEnviron e vars0) vars0 k =
      if k ∈ vars0.map Prod.fst then none else e k := by
    intro k
    rw [unassignEnviron_apply]
    by_cases hmem : k ∈ vars0.map Prod.fst
    · simp [hmem]
    · simp [hmem, assignEnviron_apply_not_mem e vars0 k hmem]
  refine ⟨happ, fun hnone => funext fun k => ?_⟩
  rw [happ k]
  by_cases hmem : k ∈ vars0.map Prod.fst
  · simp [hmem, (hnone k hmem).symm]
  · simp [hmem]

/-- C10: for a node-instance context whose node is not compute-capable and
whose runtime-property store holds a non-empty persisted sources document,
`get_source_config_from_ctx` returns the persisted document (and logs no
warning), ignoring every caller-supplied override, and raises nothing. -/
theorem get_source_config_persisted_ignores_overrides (env : RestEnv)
    (depId : String) (node : Node) (inst : Instance) (d : SrcDoc)
    (hcomp : "cloudify.nodes.Compute" ∉ node.type_hierarchy)
    (hsrc : inst.runtime_properties.sources = some d) (hne : d ≠ []) :
    ∀ gn hn hc srcs,
      getSourceConfigFromCtx env (.nodeInstance depId node inst) gn hn hc srcs =
        .ok (d, false) := by
  intro gn hn hc srcs
  have hc1 : node.type_hierarchy.contains "cloudify.nodes.Compute" = false := by
    simpa using hcomp
  have hc2 : d.isEmpty = false := by
    cases d with
    | nil => exact absurd rfl hne
    | cons hd tl => rfl
  simp [getSourceConfigFromCtx, docTruthy, hsrc, hc1, hc2, hcomp]

/-- Witness for C10: a non-compute node with persisted sources returns them
even with every override supplied. -/
theorem get_source_config_persisted_ignores_overrides_witness :
    getSourceConfigFromCtx envFix
        (.nodeInstance "dep1"
          ⟨"n1", "my.type", ["cloudify.nodes.Root"], ⟨none, none, none⟩⟩
          ⟨"i1", ⟨some [("g", ⟨[("h", none)]⟩)], none, none⟩⟩)
        (some "web") (some "h1")
        (some ⟨some "1.2.3.4", none, none, none, none, true⟩)
        (some [("z", ⟨[]⟩)]) =
      .ok ([("g", ⟨[("h", none)]⟩)], false) :=
  get_source_config_persisted_ignores_overrides envFix "dep1"
    ⟨"n1", "my.type", ["cloudify.nodes.Root"], ⟨none, none, none⟩⟩
    ⟨"i1", ⟨some [("g", ⟨[("h", none)]⟩)], none, none⟩⟩
    [("g", ⟨[("h", none)]⟩)] (by decide) rfl (by decide)
    (some "web") (some "h1")
    (some ⟨some "1.2.3.4", none, none, none, none, true⟩)
    (some [("z", ⟨[]⟩)])

end CloudifyAnsible
